import Mathlib

/-!
# Verification of the `nostr-kmp` SHA-256 bridge

The repository's native-interop layer consists of the single header
`src/nostr-core/src/nativeInterop/headers/sha256_bridge.h`:

```c
static inline void nostr_sha256_bridge(const unsigned char *data,
                                       unsigned long len,
                                       unsigned char *out) {
    CC_SHA256(data, (CC_LONG)len, out);
}
```

`CC_LONG` is CommonCrypto's `uint32_t`, while `unsigned long` is 64 bits on
the Apple platforms this header targets, so the cast truncates `len`
modulo `2^32`.  `CC_SHA256(data, n, out)` computes the canonical SHA-256
digest of the first `n` bytes of `data` and writes the 32 digest bytes to
`out`.

The SHA-256 engine itself lives in the platform library, not in this
repository, so it is modelled here from the specification's description of
the substitute `Sha256Engine` (eight 32-bit state words, a 64-byte block
buffer, a 64-bit byte counter, the standard 64-round compression function,
and Merkle-Damgard padding).  Bytes are `Nat`s below 256, 32-bit words are
`Nat`s reduced modulo `2^32`, and byte strings are `List Nat`.
-/

namespace NostrSha256

/-- Reduce a natural number to a 32-bit word. -/
def w32 (n : Nat) : Nat := n % 4294967296

/-- Right-rotate a 32-bit word by `n` positions (for `w < 2^32`). -/
def rotr (n w : Nat) : Nat :=
  w32 (w / Nat.pow 2 n + w % Nat.pow 2 n * Nat.pow 2 (32 - n))

/-- Logical right shift of a 32-bit word. -/
def shr (n w : Nat) : Nat := w / Nat.pow 2 n

/-- Modelled from the spec: the SHA-256 `Ch` function. -/
def ch (x y z : Nat) : Nat := (x &&& y) ^^^ ((x ^^^ 4294967295) &&& z)

/-- Modelled from the spec: the SHA-256 `Maj` function. -/
def maj (x y z : Nat) : Nat := (x &&& y) ^^^ (x &&& z) ^^^ (y &&& z)

/-- Modelled from the spec: the big Sigma-0 transform of the round function. -/
def bigSigma0 (x : Nat) : Nat := rotr 2 x ^^^ rotr 13 x ^^^ rotr 22 x

/-- Modelled from the spec: the big Sigma-1 transform of the round function. -/
def bigSigma1 (x : Nat) : Nat := rotr 6 x ^^^ rotr 11 x ^^^ rotr 25 x

/-- Modelled from the spec: the small sigma-0 transform of the message schedule. -/
def smallSigma0 (x : Nat) : Nat := rotr 7 x ^^^ rotr 18 x ^^^ shr 3 x

/-- Modelled from the spec: the small sigma-1 transform of the message schedule. -/
def smallSigma1 (x : Nat) : Nat := rotr 17 x ^^^ rotr 19 x ^^^ shr 10 x

/-- Modelled from the spec: the round-constant table, 64 fixed 32-bit words
(FIPS 180-4 `K[0..63]`, written in decimal: `0x428a2f98, 0x71374491, ...`). -/
def K : List Nat :=
  [1116352408, 1899447441, 3049323471, 3921009573, 961987163, 1508970993,
   2453635748, 2870763221, 3624381080, 310598401, 607225278, 1426881987,
   1925078388, 2162078206, 2614888103, 3248222580, 3835390401, 4022224774,
   264347078, 604807628, 770255983, 1249150122, 1555081692, 1996064986,
   2554220882, 2821834349, 2952996808, 3210313671, 3336571891, 3584528711,
   113926993, 338241895, 666307205, 773529912, 1294757372, 1396182291,
   1695183700, 1986661051, 2177026350, 2456956037, 2730485921, 2820302411,
   3259730800, 3345764771, 3516065817, 3600352804, 4094571909, 275423344,
   430227734, 506948616, 659060556, 883997877, 958139571, 1322822218,
   1537002063, 1747873779, 1955562222, 2024104815, 2227730452, 2361852424,
   2428436474, 2756734187, 3204031479, 3329325298]

/-- Modelled from the spec: the eight 32-bit working state words. -/
structure Words8 where
  a : Nat
  b : Nat
  c : Nat
  d : Nat
  e : Nat
  f : Nat
  g : Nat
  h : Nat
deriving Repr, DecidableEq

/-- Modelled from the spec: the fixed initial state of the engine
(FIPS 180-4 `H(0)`, written in decimal: `0x6a09e667, 0xbb67ae85, ...`). -/
def initState : Words8 :=
  ⟨1779033703, 3144134277, 1013904242, 2773480762,
   1359893119, 2600822924, 528734635, 1541459225⟩

/-- Group a byte string into big-endian 32-bit words, four bytes per word. -/
def toWords : List Nat → List Nat
  | b0 :: b1 :: b2 :: b3 :: rest => w32 (((b0 * 256 + b1) * 256 + b2) * 256 + b3) :: toWords rest
  | _ => []

/-- Message-schedule expansion worker over the reversed word list: with the
most recent word `W[i-1]` at the head, the next word is
`σ1(W[i-2]) + W[i-7] + σ0(W[i-15]) + W[i-16] mod 2^32`, prepended;
`count` words remain to be produced. -/
def scheduleRev (rws : List Nat) (count : Nat) : List Nat :=
  match count with
  | 0 => rws
  | c + 1 =>
    scheduleRev
      (w32 (smallSigma1 (rws.getD 1 0) + rws.getD 6 0 +
            smallSigma0 (rws.getD 14 0) + rws.getD 15 0) :: rws) c

/-- Modelled from the spec: expand the 16 block words to the 64-word schedule. -/
def schedule (ws : List Nat) : List Nat := (scheduleRev ws.reverse 48).reverse

/-- Modelled from the spec: one of the 64 rounds of the compression function. -/
def compressRound (st : Words8) (k : Nat) (w : Nat) : Words8 :=
  let t1 := w32 (st.h + bigSigma1 st.e + ch st.e st.f st.g + k + w)
  let t2 := w32 (bigSigma0 st.a + maj st.a st.b st.c)
  ⟨w32 (t1 + t2), st.a, st.b, st.c, w32 (st.d + t1), st.e, st.f, st.g⟩

/-- Modelled from the spec: compress one 64-byte block into the state
(64 rounds over the expanded schedule, then the feed-forward addition). -/
def compressBlock (st : Words8) (block : List Nat) : Words8 :=
  let ws := schedule (toWords block)
  let fin := (K.zip ws).foldl (fun s p => compressRound s p.1 p.2) st
  ⟨w32 (st.a + fin.a), w32 (st.b + fin.b), w32 (st.c + fin.c), w32 (st.d + fin.d),
   w32 (st.e + fin.e), w32 (st.f + fin.f), w32 (st.g + fin.g), w32 (st.h + fin.h)⟩

/-- Fuel-bounded worker for `compressFull`: compress full 64-byte blocks at
the front of `stream` while at least one step of fuel remains.  Each step
consumes 64 bytes, so any fuel of at least `stream.length` is enough. -/
def compressFullGo (fuel : Nat) (st : Words8) (stream : List Nat) : Words8 × List Nat :=
  match fuel with
  | 0 => (st, stream)
  | fuel + 1 =>
    if 64 ≤ stream.length then
      compressFullGo fuel (compressBlock st (stream.take 64)) (stream.drop 64)
    else
      (st, stream)

/-- Compress every full 64-byte block at the front of `stream`, returning the
updated state and the trailing partial block (fewer than 64 bytes). -/
def compressFull (st : Words8) (stream : List Nat) : Words8 × List Nat :=
  compressFullGo stream.length st stream

/-- Modelled from the spec: the engine state — eight 32-bit working state
words, a block buffer of 0-63 pending bytes, and the 64-bit total byte
counter. -/
structure Sha256Engine where
  state : Words8
  buffer : List Nat
  total : Nat
deriving Repr, DecidableEq

/-- Modelled from the spec: `create()` — a fresh engine in the fixed initial
state. -/
def create : Sha256Engine := ⟨initState, [], 0⟩

/-- Modelled from the spec: `absorb(bytes)` — append the input to the internal
buffer, compress every full 64-byte block encountered, keep the partial
trailing bytes buffered, and advance the 64-bit byte counter. -/
def absorb (e : Sha256Engine) (bytes : List Nat) : Sha256Engine :=
  let p := compressFull e.state (e.buffer ++ bytes)
  ⟨p.1, p.2, (e.total + bytes.length) % 18446744073709551616⟩

/-- Big-endian 8-byte encoding of a 64-bit value. -/
def beBytes8 (n : Nat) : List Nat :=
  [n / 72057594037927936 % 256, n / 281474976710656 % 256,
   n / 1099511627776 % 256, n / 4294967296 % 256,
   n / 16777216 % 256, n / 65536 % 256, n / 256 % 256, n % 256]

/-- Big-endian 4-byte serialization of a 32-bit word. -/
def beBytes4 (w : Nat) : List Nat :=
  [w / 16777216 % 256, w / 65536 % 256, w / 256 % 256, w % 256]

/-- Modelled from the spec: Merkle-Damgard padding — a `0x80` stop byte, zero
fill up to 56 mod 64, then the total bit length as a big-endian 64-bit
integer. -/
def mdPadding (total : Nat) (bufLen : Nat) : List Nat :=
  128 :: List.replicate ((119 - bufLen % 64) % 64) 0 ++
    beBytes8 (8 * total % 18446744073709551616)

/-- Modelled from the spec: `finalize()` — pad, compress the final block(s),
and serialize the eight state words big-endian into the 32-byte digest. -/
def finalize (e : Sha256Engine) : List Nat :=
  let st := (compressFull e.state (e.buffer ++ mdPadding e.total e.buffer.length)).1
  beBytes4 st.a ++ beBytes4 st.b ++ beBytes4 st.c ++ beBytes4 st.d ++
  beBytes4 st.e ++ beBytes4 st.f ++ beBytes4 st.g ++ beBytes4 st.h

/-- Modelled from the spec: the one-shot digest of a byte string — create,
absorb everything, finalize. -/
def sha256Digest (data : List Nat) : List Nat := finalize (absorb create data)

/-- Modelled from the spec: the platform library call
`CC_SHA256(data, n, out)` — the canonical SHA-256 digest of the first `n`
bytes of `data`. -/
def CC_SHA256 (data : List Nat) (n : Nat) : List Nat := sha256Digest (data.take n)

/-- From `sha256_bridge.h`: `nostr_sha256_bridge(data, len, out)` forwards to
`CC_SHA256(data, (CC_LONG)len, out)`.  `len` is a 64-bit `unsigned long` and
`CC_LONG` is `uint32_t`, so the cast reduces `len` modulo `2^32`. -/
def nostr_sha256_bridge (data : List Nat) (len : Nat) : List Nat :=
  CC_SHA256 data (len % 4294967296)

/-- Modelled from the spec: the single error class of the design — *misuse*
(absorbing after finalize, or finalizing twice). -/
inductive Misuse where
  | absorbAfterFinalize
  | doubleFinalize
deriving Repr, DecidableEq

/-- Modelled from the spec: an engine together with its lifecycle flag, so
that the misuse error class is representable. -/
structure TrackedEngine where
  engine : Sha256Engine
  finalized : Bool
deriving Repr, DecidableEq

/-- Modelled from the spec: a fresh tracked engine (not yet finalized). -/
def createT : TrackedEngine := ⟨create, false⟩

/-- Modelled from the spec: absorb on a tracked engine; the only error
condition is absorbing after finalize. -/
def absorbT (e : TrackedEngine) (bs : List Nat) : Except Misuse TrackedEngine :=
  if e.finalized then .error .absorbAfterFinalize else .ok ⟨absorb e.engine bs, false⟩

/-- Modelled from the spec: finalize on a tracked engine; the only error
condition is finalizing twice. -/
def finalizeT (e : TrackedEngine) : Except Misuse (List Nat) :=
  if e.finalized then .error .doubleFinalize else .ok (finalize e.engine)

/-- Modelled from the spec: the correct-usage digest pipeline —
create, absorb the whole input once, finalize. -/
def sha256Run (data : List Nat) : Except Misuse (List Nat) := do
  let e ← absorbT createT data
  finalizeT e

/-- Flip bit `i` of a byte string (bit `i % 8` of byte `i / 8`). -/
def flipBit (data : List Nat) (i : Nat) : List Nat :=
  data.set (i / 8) (data.getD (i / 8) 0 ^^^ Nat.pow 2 (i % 8))

/-- `true` when flipping any single bit of `data` yields a digest different
from the reference digest `base`. -/
def avalancheAgainst (base : List Nat) (data : List Nat) : Bool :=
  (List.range (8 * data.length)).all fun i =>
    sha256Digest (flipBit data i) != base

/-- `true` when flipping any single bit of `data` changes at least one byte
of the 32-byte digest. -/
def avalancheOK (data : List Nat) : Bool :=
  avalancheAgainst (sha256Digest data) data

/-- The fixed sample of inputs for the avalanche smoke test. -/
def avalancheSample : List (List Nat) :=
  [[97, 98, 99], [0], [255, 18]]

/-! ## Helper lemmas -/

/-- Any two sufficient amounts of fuel give the same result. -/
theorem compressFullGo_fuel (f1 : Nat) :
    ∀ (f2 : Nat) (st : Words8) (s : List Nat),
      s.length ≤ f1 → s.length ≤ f2 → compressFullGo f1 st s = compressFullGo f2 st s := by
  induction f1 with
  | zero =>
    intro f2 st s h1 _
    have hs : s.length = 0 := Nat.le_zero.mp h1
    cases f2 with
    | zero => rfl
    | succ f2 =>
      simp only [compressFullGo]
      rw [if_neg (by omega)]
  | succ f1 ih =>
    intro f2 st s h1 h2
    cases f2 with
    | zero =>
      have hs : s.length = 0 := Nat.le_zero.mp h2
      simp only [compressFullGo]
      rw [if_neg (by omega)]
    | succ f2 =>
      simp only [compressFullGo]
      by_cases hlen : 64 ≤ s.length
      · rw [if_pos hlen, if_pos hlen]
        exact ih f2 _ _ (by simp only [List.length_drop]; omega)
          (by simp only [List.length_drop]; omega)
      · rw [if_neg hlen, if_neg hlen]

/-- The defining recursion of `compressFull`, free of fuel. -/
theorem compressFull_unfold (st : Words8) (stream : List Nat) :
    compressFull st stream =
      if 64 ≤ stream.length then
        compressFull (compressBlock st (stream.take 64)) (stream.drop 64)
      else (st, stream) := by
  by_cases hlen : 64 ≤ stream.length
  · rw [if_pos hlen]
    show compressFullGo stream.length st stream = _
    rw [compressFullGo_fuel stream.length (stream.length + 1) st stream (Nat.le_refl _)
      (Nat.le_succ _)]
    simp only [compressFullGo]
    rw [if_pos hlen]
    exact compressFullGo_fuel stream.length _ _ _
      (by simp only [List.length_drop]; omega) (Nat.le_refl _)
  · rw [if_neg hlen]
    show compressFullGo stream.length st stream = _
    cases hs : stream.length with
    | zero => rfl
    | succ n =>
      simp only [compressFullGo]
      rw [if_neg (by omega)]

/-- Compressing a stream followed by further bytes is the same as compressing
the stream first and then continuing from its remainder. -/
theorem compressFull_append (st : Words8) (s b : List Nat) :
    compressFull st (s ++ b) =
      compressFull (compressFull st s).1 ((compressFull st s).2 ++ b) := by
  have H : ∀ (n : Nat) (s : List Nat), s.length = n → ∀ (st : Words8) (b : List Nat),
      compressFull st (s ++ b) =
        compressFull (compressFull st s).1 ((compressFull st s).2 ++ b) := by
    intro n
    induction n using Nat.strong_induction_on with
    | _ n ih =>
      intro s hs st b
      by_cases hlen : 64 ≤ s.length
      · rw [compressFull_unfold st s, compressFull_unfold st (s ++ b)]
        have hb : 64 ≤ (s ++ b).length := by
          simp only [List.length_append]
          omega
        rw [if_pos hlen, if_pos hb]
        rw [List.take_append_of_le_length hlen, List.drop_append_of_le_length hlen]
        exact ih (s.drop 64).length (by simp only [List.length_drop]; omega)
          (s.drop 64) rfl _ b
      · rw [compressFull_unfold st s, if_neg hlen]
  exact H s.length s rfl st b

/-- Absorbing `a` and then `b` is the same as absorbing `a ++ b`. -/
theorem absorb_append (e : Sha256Engine) (a b : List Nat) :
    absorb (absorb e a) b = absorb e (a ++ b) := by
  simp only [absorb]
  refine congrArg₂ (fun (p : Words8 × List Nat) (t : Nat) => Sha256Engine.mk p.1 p.2 t) ?_ ?_
  · rw [← List.append_assoc, compressFull_append e.state (e.buffer ++ a) b]
  · rw [List.length_append, Nat.mod_add_mod, Nat.add_assoc]

/-- The serialized digest always consists of exactly 32 bytes. -/
theorem finalize_length (e : Sha256Engine) : (finalize e).length = 32 := by
  simp [finalize, beBytes4]

end NostrSha256

namespace NostrSha256

/-! ## Claims -/

/-- C3: calling `nostr_sha256_bridge` on the empty input (`len = 0`) writes
the 32 bytes `e3b0c44298fc1c149afbf4c8996fb92427ae41e4649b934ca495991b7852b855`. -/
theorem c3_bridge_empty_vector :
    nostr_sha256_bridge [] 0 =
      [0xe3, 0xb0, 0xc4, 0x42, 0x98, 0xfc, 0x1c, 0x14,
       0x9a, 0xfb, 0xf4, 0xc8, 0x99, 0x6f, 0xb9, 0x24,
       0x27, 0xae, 0x41, 0xe4, 0x64, 0x9b, 0x93, 0x4c,
       0xa4, 0x95, 0x99, 0x1b, 0x78, 0x52, 0xb8, 0x55] := by
  decide

/-- C4: calling `nostr_sha256_bridge` on the three ASCII bytes `"abc"`
(`len = 3`) writes the 32 bytes
`ba7816bf8f01cfea414140de5dae2223b00361a396177a9cb410ff61f20015ad`. -/
theorem c4_bridge_abc_vector :
    nostr_sha256_bridge [97, 98, 99] 3 =
      [0xba, 0x78, 0x16, 0xbf, 0x8f, 0x01, 0xcf, 0xea,
       0x41, 0x41, 0x40, 0xde, 0x5d, 0xae, 0x22, 0x23,
       0xb0, 0x03, 0x61, 0xa3, 0x96, 0x17, 0x7a, 0x9c,
       0xb4, 0x10, 0xff, 0x61, 0xf2, 0x00, 0x15, 0xad] := by
  decide

/-- C5: for every input, the digest written by `nostr_sha256_bridge` is
exactly 32 bytes long. -/
theorem c5_digest_length (data : List Nat) (len : Nat) :
    (nostr_sha256_bridge data len).length = 32 ∧ (sha256Digest data).length = 32 := by
  exact ⟨finalize_length _, finalize_length _⟩

/-- C1: the bridge truncates its 64-bit length argument to 32 bits, so it
does not hash all `len` bytes for every `len ≤ 2^61`.  At the failing input
`data = 2^32` zero bytes with `len = 2^32`, the cast `(CC_LONG)len` yields 0
and the bridge produces the digest of the empty input — the well-known
constant `e3b0c4...` — instead of the digest of the `2^32` input bytes. -/
theorem c1_bridge_truncates_at_pow32 :
    nostr_sha256_bridge (List.replicate (2 ^ 32) 0) (2 ^ 32) = sha256Digest [] ∧
      sha256Digest [] =
        [0xe3, 0xb0, 0xc4, 0x42, 0x98, 0xfc, 0x1c, 0x14,
         0x9a, 0xfb, 0xf4, 0xc8, 0x99, 0x6f, 0xb9, 0x24,
         0x27, 0xae, 0x41, 0xe4, 0x64, 0x9b, 0x93, 0x4c,
         0xa4, 0x95, 0x99, 0x1b, 0x78, 0x52, 0xb8, 0x55] := by
  constructor
  · simp only [nostr_sha256_bridge, CC_SHA256]
    rw [show (2 ^ 32 : Nat) % 4294967296 = 0 from by norm_num, List.take_zero]
  · decide

/-- C2: for every `data` and every 64-bit `len`, the bridge hashes exactly
the first `len mod 2^32` bytes of `data`; in particular, whenever `len` is a
multiple of `2^32` the result is the digest of the empty input. -/
theorem c2_bridge_mod_pow32 (data : List Nat) (len : Nat) :
    nostr_sha256_bridge data len = sha256Digest (data.take (len % 2 ^ 32)) ∧
      (len % 2 ^ 32 = 0 → nostr_sha256_bridge data len = sha256Digest []) := by
  have h32 : (2 ^ 32 : Nat) = 4294967296 := by norm_num
  constructor
  · rw [h32]
    rfl
  · intro h
    rw [h32] at h
    simp only [nostr_sha256_bridge, CC_SHA256]
    rw [h, List.take_zero]

/-- C2 witness: at `len = 2^32`, a nonzero multiple of `2^32`, the bridge
returns the digest of the empty input. -/
theorem c2_bridge_mod_pow32_witness :
    nostr_sha256_bridge [1, 2, 3] (2 ^ 32) = sha256Digest [] :=
  (c2_bridge_mod_pow32 [1, 2, 3] (2 ^ 32)).2 (Nat.mod_self _)

/-- C6: the digest computation is deterministic — two invocations of the
bridge on byte-for-byte equal data and equal lengths produce identical
digests; the output depends on nothing but the input bytes and the length. -/
theorem c6_deterministic (data1 data2 : List Nat) (len1 len2 : Nat)
    (hdata : data1 = data2) (hlen : len1 = len2) :
    nostr_sha256_bridge data1 len1 = nostr_sha256_bridge data2 len2 := by
  rw [hdata, hlen]

/-- C6 witness. -/
theorem c6_deterministic_witness :
    nostr_sha256_bridge [7] 1 = nostr_sha256_bridge [7] 1 :=
  c6_deterministic [7] [7] 1 1 rfl rfl

/-- C7: hashing never fails in correct usage — for every input byte sequence
the create/absorb/finalize pipeline accepts the input and completes with the
digest, never returning a misuse error. -/
theorem c7_no_failure (data : List Nat) :
    sha256Run data = Except.ok (sha256Digest data) := by
  rfl

/-- C8: chunking correctness — for every concatenation `a ++ b`, absorbing
`a` then `b` in two calls and finalizing yields the same digest as hashing
`a ++ b` in one call, for every split, aligned with the 64-byte block size
or not. -/
theorem c8_chunking (a b : List Nat) :
    finalize (absorb (absorb create a) b) = sha256Digest (a ++ b) := by
  rw [absorb_append]
  rfl

set_option maxRecDepth 100000 in
set_option maxHeartbeats 4000000 in
/-- C9: avalanche smoke test — for each input of a fixed sample, flipping
any single bit of the input changes at least one byte of the 32-byte
digest. -/
theorem c9_avalanche : avalancheSample.all avalancheOK = true := by
  have habc : sha256Digest [97, 98, 99] =
      [0xba, 0x78, 0x16, 0xbf, 0x8f, 0x01, 0xcf, 0xea,
       0x41, 0x41, 0x40, 0xde, 0x5d, 0xae, 0x22, 0x23,
       0xb0, 0x03, 0x61, 0xa3, 0x96, 0x17, 0x7a, 0x9c,
       0xb4, 0x10, 0xff, 0x61, 0xf2, 0x00, 0x15, 0xad] := by decide
  have h0 : sha256Digest [0] =
      [0x6e, 0x34, 0x0b, 0x9c, 0xff, 0xb3, 0x7a, 0x98,
       0x9c, 0xa5, 0x44, 0xe6, 0xbb, 0x78, 0x0a, 0x2c,
       0x78, 0x90, 0x1d, 0x3f, 0xb3, 0x37, 0x38, 0x76,
       0x85, 0x11, 0xa3, 0x06, 0x17, 0xaf, 0xa0, 0x1d] := by decide
  have hf : sha256Digest [255, 18] =
      [0xc2, 0x56, 0x37, 0x93, 0xd5, 0xcb, 0xb0, 0x6c,
       0x7e, 0xac, 0x73, 0xf0, 0x7b, 0x2c, 0x00, 0x1c,
       0xf7, 0x9a, 0x81, 0x68, 0x29, 0xfe, 0x20, 0xbf,
       0xbf, 0x8f, 0x82, 0x55, 0x0b, 0xd8, 0x93, 0x17] := by decide
  show (avalancheOK [97, 98, 99] && (avalancheOK [0] && (avalancheOK [255, 18] && true))) = true
  unfold avalancheOK
  rw [habc, h0, hf]
  decide

end NostrSha256
